import Mathlib

/-!
Shallow embedding of the news retrieval and enrichment pipeline of
`src/utils.py` (an AI news dashboard), together with theorems settling the
spec claims about it.

Python strings are modelled as Lean `String` (lists of characters), floats
as `ℚ`, machine ints as `Int`/`Nat`, and the effectful parts
(HTTP requests, XML / feed-library parsing, sleeping) as explicit oracles
passed in an `Env`, with the requests issued and sleeps performed recorded
in a trace.
-/

namespace AINews

/-! ## Python string primitives

Each helper mirrors the behaviour of the corresponding Python operation
(`str.strip`, `str.lower`, `str.split()` with no arguments, `x in s`),
implemented by structural recursion on the character list so that concrete
instances evaluate in the kernel. -/

/-- Python `str.strip()`: drop leading and trailing whitespace. -/
def pyStrip (s : String) : String :=
  String.mk (((s.data.dropWhile Char.isWhitespace).reverse.dropWhile Char.isWhitespace).reverse)

/-- Python `str.lower()` (ASCII case folding, which covers all inputs used here). -/
def pyLower (s : String) : String :=
  String.mk (s.data.map Char.toLower)

/-- Auxiliary splitter for `pySplitWs`: accumulates the current word (reversed). -/
def splitWsAux : List Char → List Char → List String
  | [], cur => if cur = [] then [] else [String.mk cur.reverse]
  | c :: cs, cur =>
      if c.isWhitespace then
        (if cur = [] then splitWsAux cs [] else String.mk cur.reverse :: splitWsAux cs [])
      else splitWsAux cs (c :: cur)

/-- Python `str.split()` with no arguments: split on whitespace runs, dropping empties. -/
def pySplitWs (s : String) : List String :=
  splitWsAux s.data []

/-- Does `pat` occur at the start of `hay`? -/
def startsWithChars : List Char → List Char → Bool
  | _, [] => true
  | [], _ :: _ => false
  | h :: hs, p :: ps => h = p && startsWithChars hs ps

/-- Does `pat` occur anywhere in `hay`? -/
def containsChars : List Char → List Char → Bool
  | [], pat => pat = []
  | h :: hs, pat => startsWithChars (h :: hs) pat || containsChars hs pat

/-- Python `pat in s` on strings: substring containment. -/
def strContains (s pat : String) : Bool :=
  containsChars s.data pat.data

/-! ## Sentiment analysis (`analyze_sentiment_batch`)

The VADER model is abstracted as an optional polarity-scoring function
`Option (String → ℚ)`; `none` models `_init_vader()` returning `None`
(missing dependency or lexicon). -/

/-- One sentiment result: the `compound` polarity score and derived label. -/
structure SentimentResult where
  compound : ℚ
  label : String
deriving DecidableEq

/-- The label derivation in `analyze_sentiment_batch`:
`"positive" if compound > 0.2 else ("negative" if compound < -0.2 else "neutral")`. -/
def sentimentLabel (compound : ℚ) : String :=
  if compound > 1/5 then "positive"
  else if compound < -(1/5) then "negative"
  else "neutral"

/-- `analyze_sentiment_batch(texts)` from `src/utils.py`: loops over `texts`
appending one result each; with no analyzer every result is
`{compound: 0.0, label: "neutral"}`, otherwise the text (`t or ""`) is scored
and labelled via the fixed thresholds. -/
def analyze_sentiment_batch (sia : Option (String → ℚ)) : List String → List SentimentResult
  | [] => []
  | t :: ts =>
      (match sia with
       | none => ({ compound := 0, label := "neutral" } : SentimentResult)
       | some polarity_scores =>
           let c := polarity_scores (if t = "" then "" else t)
           { compound := c, label := sentimentLabel c }) :: analyze_sentiment_batch sia ts

/-! ## Keyword extraction, fallback strategy (`extract_keywords`)

The claims concern the `CountVectorizer is None` branch: a naive token
count with a `Counter` and `most_common(top_k)`. -/

/-- The fixed filler-word set of `extract_keywords`. -/
def fillers : List String :=
  ["the", "from", "says", "and", "or", "a", "an", "to", "in", "of", "on", "for", "with"]

/-- `''.join(ch for ch in w if ch.isalnum())`. -/
def cleanToken (w : String) : String :=
  String.mk (w.data.filter Char.isAlphanum)

/-- The token pass of the fallback branch: for each text, lowercase, split on
whitespace, strip non-alphanumerics, drop tokens shorter than 3 characters or
in the filler set, and append the survivors in order. -/
def fallbackTokens (texts : List String) : List String :=
  texts.foldl
    (fun toks t =>
      toks ++ ((pySplitWs (pyLower (if t = "" then "" else t))).map cleanToken).filter
        (fun w => ¬ (w.length < 3 ∨ w ∈ fillers)))
    []

/-- `collections.Counter` over a token list: counts keyed in first-encounter
order (Python dicts preserve insertion order). -/
def counterOf (ts : List String) : List (String × Nat) :=
  ts.foldl
    (fun acc w =>
      if acc.any (fun p => p.1 = w) then
        acc.map (fun p => if p.1 = w then (p.1, p.2 + 1) else p)
      else acc ++ [(w, 1)])
    []

/-- Stable descending insertion by count: an element is placed after all
strictly larger counts and before equal ones coming later in the list. -/
def insertByCount (p : String × Nat) : List (String × Nat) → List (String × Nat)
  | [] => [p]
  | q :: qs => if p.2 < q.2 then q :: insertByCount p qs else p :: q :: qs

/-- Stable sort by descending count, as `Counter.most_common` produces
(ties broken by first-encounter order). -/
def sortByCountDesc : List (String × Nat) → List (String × Nat)
  | [] => []
  | p :: ps => insertByCount p (sortByCountDesc ps)

/-- `Counter(tokens).most_common(k)`. -/
def mostCommon (k : Nat) (ts : List String) : List (String × Nat) :=
  (sortByCountDesc (counterOf ts)).take k

/-- The fallback branch of `extract_keywords(texts, top_k)` (taken when
`CountVectorizer is None`), including the initial `if not texts: return []`. -/
def extract_keywords_fallback (texts : List String) (top_k : Nat) : List (String × Nat) :=
  if texts = [] then [] else mostCommon top_k (fallbackTokens texts)

/-! ## Buzz meter (`buzz_meter_value`) -/

/-- One normalized article record (title, link, published, source). -/
structure Article where
  title : String
  link : String
  published : String
  source : String
deriving DecidableEq

/-- `buzz_meter_value(articles)`: `max(5, min(100, int(100 * (n / 40))))` where
`n = len(articles)`; Python `int()` truncates, which on this nonnegative value
is the floor. -/
def buzz_meter_value (articles : List Article) : Int :=
  max 5 (min 100 (Int.floor ((100 : ℚ) * ((articles.length : ℚ) / 40))))

/-! ## Feed URL builder (`_google_news_url`)

`urllib.parse.quote_plus` is modelled character-by-character: ASCII letters,
digits and `_.-~` pass through, a space becomes `+`, and any other character
is percent-encoded from its UTF-8 bytes with uppercase hex. -/

/-- Uppercase hex digit for a value below 16. -/
def hexDigit (n : Nat) : Char :=
  if n < 10 then Char.ofNat (48 + n) else Char.ofNat (55 + n)

/-- `%XX` encoding of one byte. -/
def percentByte (b : Nat) : String :=
  String.mk ['%', hexDigit (b / 16), hexDigit (b % 16)]

/-- UTF-8 bytes of a character. -/
def utf8Bytes (c : Char) : List Nat :=
  let n := c.toNat
  if n < 128 then [n]
  else if n < 2048 then [192 + n / 64, 128 + n % 64]
  else if n < 65536 then [224 + n / 4096, 128 + (n / 64) % 64, 128 + n % 64]
  else [240 + n / 262144, 128 + (n / 4096) % 64, 128 + (n / 64) % 64, 128 + n % 64]

/-- Characters `quote_plus` never encodes (Python `_ALWAYS_SAFE` minus space). -/
def isUrlSafe (c : Char) : Bool :=
  c.isAlphanum || c = '_' || c = '.' || c = '-' || c = '~'

/-- `urllib.parse.quote_plus` on one character. -/
def quotePlusChar (c : Char) : String :=
  if c = ' ' then "+"
  else if isUrlSafe c then String.mk [c]
  else String.join ((utf8Bytes c).map percentByte)

/-- `urllib.parse.quote_plus(s)`. -/
def quote_plus (s : String) : String :=
  String.join (s.data.map quotePlusChar)

/-- The browser-identifying User-Agent constant `_UA` of `src/utils.py`. -/
def _UA : String :=
  "Mozilla/5.0 (Windows NT 10.0; Win64; x64) " ++
  "AppleWebKit/537.36 (KHTML, like Gecko) " ++
  "Chrome/124.0.0.0 Safari/537.36"

/-- The lookback-days computation of `_google_news_url`:
`max(1, int(days_back or 7))` — note `days_back or 7` yields 7 when
`days_back == 0` (falsy). -/
def _google_news_days (days_back : Int) : Int :=
  max 1 (if days_back = 0 then 7 else days_back)

/-- `_google_news_url(query, days_back, region, lang)` from `src/utils.py`:
`q = quote_plus(query.strip()) if query else "AI"` and a `when:{days}d`
recency filter with locale parameters. -/
def _google_news_url (query : String) (days_back : Int)
    (region : String := "US") (lang : String := "en") : String :=
  "https://news.google.com/rss/search?" ++
    "q=" ++ (if query = "" then "AI" else quote_plus (pyStrip query)) ++
    "+when:" ++ toString (_google_news_days days_back) ++ "d&hl=" ++ lang ++ "-" ++ region ++
    "&gl=" ++ region ++ "&ceid=" ++ region ++ ":" ++ lang

/-! ## HTTP fetch with retries (`fetch_google_news`, lines 466-478)

The network is an oracle `Nat → HttpAttempt` giving the outcome of the k-th
GET issued. The loop records every request it issues (with its header and
timeout) and every `time.sleep` duration, so the retry/backoff discipline is
visible in the trace. -/

/-- Outcome of one HTTP GET: `ok = true` with the response body models a
successful `requests.get` + `raise_for_status`, `ok = false` models any
exception with `err` the exception's description. -/
structure HttpAttempt where
  ok : Bool
  body : String
  err : String

/-- One issued request: target URL, `User-Agent` header and timeout. -/
structure HttpRequest where
  url : String
  userAgent : String
  timeout : ℚ

/-- Python `f"{x}"` on an optional string, `None` rendering as `"None"`. -/
def pyFormatOpt : Option String → String
  | none => "None"
  | some s => s

/-- The retry loop `for attempt in range(3): ... else: return error`:
processes the remaining attempt indices, returning the first successful body
or (for-else) the HTTP error message built from `last_err`, together with the
requests issued and the `0.5 * (attempt + 1)` sleeps performed. -/
def httpLoop (http : Nat → HttpAttempt) (url : String) :
    List Nat → Option String → Except String String × List HttpRequest × List ℚ
  | [], lastErr =>
      (Except.error ("HTTP error fetching RSS: " ++ pyFormatOpt lastErr), [], [])
  | a :: rest, _ =>
      let req : HttpRequest := { url := url, userAgent := _UA, timeout := 10 }
      let o := http a
      if o.ok then (Except.ok o.body, [req], [])
      else
        let r := httpLoop http url rest (some o.err)
        (r.1, req :: r.2.1, (1/2 : ℚ) * ((a : ℚ) + 1) :: r.2.2)

/-- The whole `--- HTTP with retries & UA ---` block: three attempts starting
from `last_err = None`. -/
def http_fetch (http : Nat → HttpAttempt) (url : String) :
    Except String String × List HttpRequest × List ℚ :=
  httpLoop http url (List.range 3) none

/-! ## Feed parsing (`fetch_google_news`, lines 480-532) -/

/-- One `<item>` element as seen by the `xml.etree` strategy: the texts of
its `title`/`link`/`pubDate` children (`findtext` returns `None` when the
child is missing) and the (tag, text) list of all its children, among which a
publisher source element is searched. -/
structure XmlItem where
  title : Option String
  link : Option String
  pubDate : Option String
  children : List (String × Option String)
deriving DecidableEq

/-- One entry as seen by the feedparser fallback strategy:
`getattr(e, field, "")` for title/link/published, and the optional
`e.source.title`. -/
structure FpEntry where
  title : String
  link : String
  published : String
  source : Option String
deriving DecidableEq

/-- Locate the publisher: the first child whose lowercased tag contains
`"source"`, its text `or ""` stripped; `""` when there is none. -/
def xmlExtractSource (children : List (String × Option String)) : String :=
  match children.find? (fun c => strContains (pyLower c.1) "source") with
  | some c => pyStrip (c.2.getD "")
  | none => ""

/-- The article record the `xml.etree` strategy builds from an `<item>`. -/
def xmlArticle (it : XmlItem) : Article :=
  ⟨pyStrip (it.title.getD ""), pyStrip (it.link.getD ""),
   pyStrip (it.pubDate.getD ""), xmlExtractSource it.children⟩

/-- One iteration body of the `xml.etree` item loop: append the record when
both stripped title and link are non-empty (`if title and link:`). -/
def xmlStep (acc : List Article) (it : XmlItem) : List Article :=
  if pyStrip (it.title.getD "") ≠ "" ∧ pyStrip (it.link.getD "") ≠ ""
  then acc ++ [xmlArticle it] else acc

/-- The `xml.etree` item loop: run `xmlStep` on each item in order and
`break` as soon as the article count reaches `cap`
(`if len(articles) >= max(1, int(max_articles or 15)): break`). -/
def xmlCollect (cap : Nat) : List XmlItem → List Article → List Article
  | [], acc => acc
  | it :: rest, acc =>
      if cap ≤ (xmlStep acc it).length then xmlStep acc it
      else xmlCollect cap rest (xmlStep acc it)

/-- The article record the feedparser fallback builds from an entry. -/
def fpArticle (e : FpEntry) : Article :=
  ⟨pyStrip e.title, pyStrip e.link, pyStrip e.published, pyStrip (e.source.getD "")⟩

/-- One step of the feedparser fallback loop body: append the record when
both stripped title and link are non-empty. -/
def fallbackStep (acc : List Article) (e : FpEntry) : List Article :=
  if pyStrip e.title ≠ "" ∧ pyStrip e.link ≠ "" then acc ++ [fpArticle e] else acc

/-- The feedparser fallback loop `for e in feed.entries[:cap]`: the cap is a
slice of the raw entry list, applied before the title/link filter. -/
def fallbackCollect (cap : Nat) (entries : List FpEntry) : List Article :=
  (entries.take cap).foldl fallbackStep []

/-- `max(1, int(max_articles or 15))`, the article cap (as a `Nat`; it is
always at least 1). -/
def fgn_cap (max_articles : Int) : Nat :=
  (max 1 (if max_articles = 0 then 15 else max_articles)).toNat

/-- The error message returned when a strategy completes with zero retained
articles. -/
def emptyFeedMsg : String :=
  "Feed returned no items (query/source may be blocked or empty)."

/-- The parsing environment: `xmlParse` models `ET.fromstring` succeeding
with the item list or raising (`none`); `fpParse` models the feedparser
fallback, `Except.error e2` being the exception it raises. The HTTP oracle
models the network. -/
structure Env where
  http : Nat → HttpAttempt
  xmlParse : String → Option (List XmlItem)
  fpParse : String → Except String (List FpEntry)

/-- The `--- Parse RSS (XML first, feedparser fallback) ---` block: the
structured-XML strategy, falling back on failure to the feedparser strategy,
whose own failure yields the `"Parse error: ..."` result. -/
def parse_feed (env : Env) (xml_text : String) (cap : Nat) : Except String (List Article) :=
  match env.xmlParse xml_text with
  | some items => Except.ok (xmlCollect cap items [])
  | none =>
      match env.fpParse xml_text with
      | Except.ok entries => Except.ok (fallbackCollect cap entries)
      | Except.error e2 => Except.error ("Parse error: " ++ e2)

/-- `fetch_google_news(query, days_back, max_articles, region, lang)`:
URL building, HTTP with retries, parsing with fallback, and the final
`if not articles` empty-feed check. Returns the `(articles, error)` pair. -/
def fetch_google_news (env : Env) (query : String) (days_back : Int) (max_articles : Int)
    (region : String) (lang : String) : List Article × Option String :=
  match (http_fetch env.http (_google_news_url query days_back region lang)).1 with
  | Except.error msg => ([], some msg)
  | Except.ok xml_text =>
      match parse_feed env xml_text (fgn_cap max_articles) with
      | Except.error msg => ([], some msg)
      | Except.ok articles =>
          if articles = [] then ([], some emptyFeedMsg) else (articles, none)

/-- `fetch_news(query, days, max_items)` (the second, shadowing definition at
the end of `src/utils.py`): delegates to `fetch_google_news` with default
region/lang and returns the article list, surfacing the error only as a UI
warning side effect. -/
def fetch_news (env : Env) (query : String) (days : Int) (max_items : Int) : List Article :=
  (fetch_google_news env query days max_items "US" "en").1

/-! ## Concrete test environments -/

/-- Environment where HTTP succeeds immediately, the XML strategy raises and
the feed-library fallback returns an empty entry list. -/
def envFallbackEmpty : Env where
  http := fun _ => ⟨true, "x", ""⟩
  xmlParse := fun _ => none
  fpParse := fun _ => Except.ok []

/-- Environment where HTTP succeeds immediately and the XML strategy yields
one valid item followed by one item with an empty link. -/
def envXmlTwo : Env where
  http := fun _ => ⟨true, "x", ""⟩
  xmlParse := fun _ => some [⟨some "T1", some "L1", some "P1", [("news:source", some "S1")]⟩,
                             ⟨some "T2", some "", none, []⟩]
  fpParse := fun _ => Except.error "unused"

/-! # Theorems -/

/-- `(s ++ t).data = s.data ++ t.data`, by cases on the two strings. -/
theorem string_data_append (s t : String) : (s ++ t).data = s.data ++ t.data := by
  cases s; cases t; rfl

/-- The label derivation realises the fixed exclusive thresholds at `±1/5`. -/
theorem sentimentLabel_spec (c : ℚ) :
    (sentimentLabel c = "positive" ↔ 1/5 < c) ∧
    (sentimentLabel c = "negative" ↔ c < -(1/5)) ∧
    (sentimentLabel c = "neutral" ↔ -(1/5) ≤ c ∧ c ≤ 1/5) := by
  unfold sentimentLabel
  split_ifs with h1 h2
  · exact ⟨⟨fun _ => h1, fun _ => rfl⟩,
      ⟨fun h => absurd h (by decide), fun h => absurd h (by linarith)⟩,
      ⟨fun h => absurd h (by decide), fun h => absurd h.2 (by linarith)⟩⟩
  · exact ⟨⟨fun h => absurd h (by decide), fun h => absurd h (by linarith)⟩,
      ⟨fun _ => h2, fun _ => rfl⟩,
      ⟨fun h => absurd h (by decide), fun h => absurd h.1 (by linarith)⟩⟩
  · exact ⟨⟨fun h => absurd h (by decide), fun h => absurd h h1⟩,
      ⟨fun h => absurd h (by decide), fun h => absurd h h2⟩,
      ⟨fun _ => ⟨not_lt.mp h2, not_lt.mp h1⟩, fun _ => rfl⟩⟩

/-- Every result of `analyze_sentiment_batch` has its label related to its
compound score by the fixed thresholds. -/
theorem analyze_sentiment_batch_mem (sia : Option (String → ℚ)) (texts : List String) :
    ∀ r ∈ analyze_sentiment_batch sia texts,
      (r.label = "positive" ↔ 1/5 < r.compound) ∧
      (r.label = "negative" ↔ r.compound < -(1/5)) ∧
      (r.label = "neutral" ↔ -(1/5) ≤ r.compound ∧ r.compound ≤ 1/5) := by
  induction texts with
  | nil => intro r hr; simp [analyze_sentiment_batch] at hr
  | cons t ts ih =>
      intro r hr
      simp only [analyze_sentiment_batch] at hr
      rcases List.mem_cons.mp hr with h | h
      · subst h
        cases sia with
        | none =>
            have h0 : sentimentLabel 0 = "neutral" := by norm_num [sentimentLabel]
            have hs := sentimentLabel_spec 0
            rw [h0] at hs
            exact hs
        | some f => exact sentimentLabel_spec _
      · exact ih r h

/-- C2: every sentiment result's label is `"positive"` exactly when its
compound exceeds `0.2`, `"negative"` exactly when it is below `-0.2`, and
`"neutral"` otherwise; both boundary values `0.2` and `-0.2` label
`"neutral"` (the thresholds are exclusive). -/
theorem C2_sentiment_label_thresholds (sia : Option (String → ℚ)) (texts : List String) :
    (∀ r ∈ analyze_sentiment_batch sia texts,
        (r.label = "positive" ↔ 1/5 < r.compound) ∧
        (r.label = "negative" ↔ r.compound < -(1/5)) ∧
        (r.label = "neutral" ↔ -(1/5) ≤ r.compound ∧ r.compound ≤ 1/5)) ∧
    sentimentLabel (1/5) = "neutral" ∧ sentimentLabel (-(1/5)) = "neutral" :=
  ⟨analyze_sentiment_batch_mem sia texts,
   by norm_num [sentimentLabel], by norm_num [sentimentLabel]⟩

/-- Witness for `C2_sentiment_label_thresholds` at a concrete scoring
function and text list. -/
theorem C2_sentiment_label_thresholds_witness :
    (SentimentResult.mk (1/2) "positive").label = "positive" ∧
    sentimentLabel (1/5) = "neutral" := by
  have h := C2_sentiment_label_thresholds (some (fun _ => (1:ℚ)/2)) ["good"]
  refine ⟨?_, h.2.1⟩
  have hb : analyze_sentiment_batch (some (fun _ => (1:ℚ)/2)) ["good"] =
      [SentimentResult.mk (1/2) "positive"] := by
    simp [analyze_sentiment_batch]
    norm_num [sentimentLabel]
  have hm : (SentimentResult.mk (1/2) "positive") ∈
      analyze_sentiment_batch (some (fun _ => (1:ℚ)/2)) ["good"] := by
    rw [hb]; exact List.mem_singleton.mpr rfl
  exact (h.1 _ hm).1.mpr (show (1:ℚ)/5 < 1/2 by norm_num)

/-- In degraded mode the batch is the input list mapped constantly to the
neutral result. -/
theorem analyze_sentiment_batch_none (texts : List String) :
    analyze_sentiment_batch none texts =
      texts.map (fun _ => ({ compound := 0, label := "neutral" } : SentimentResult)) := by
  induction texts with
  | nil => rfl
  | cons t ts ih => simp [analyze_sentiment_batch, ih]

/-- C8: with no analyzer available, `analyze_sentiment_batch` maps any list
of `n` texts to exactly `n` results, positionally aligned, each equal to
`{compound: 0.0, label: "neutral"}`. -/
theorem C8_degraded_sentiment (texts : List String) :
    analyze_sentiment_batch none texts =
      texts.map (fun _ => ({ compound := 0, label := "neutral" } : SentimentResult)) ∧
    (analyze_sentiment_batch none texts).length = texts.length ∧
    ∀ r ∈ analyze_sentiment_batch none texts,
      r = ({ compound := 0, label := "neutral" } : SentimentResult) := by
  have hmap := analyze_sentiment_batch_none texts
  refine ⟨hmap, by rw [hmap, List.length_map], ?_⟩
  intro r hr
  rw [hmap] at hr
  rcases List.mem_map.mp hr with ⟨a, _, ha⟩
  exact ha.symm

/-- Witness for `C8_degraded_sentiment`: an empty string and a
10000-character string both yield the neutral result. -/
theorem C8_degraded_sentiment_witness :
    analyze_sentiment_batch none ["", String.mk (List.replicate 10000 'x')] =
      [({ compound := 0, label := "neutral" } : SentimentResult),
       { compound := 0, label := "neutral" }] := by
  rw [(C8_degraded_sentiment ["", String.mk (List.replicate 10000 'x')]).1]
  rfl

/-- C3, counterexample: on the spec's test texts the fallback keyword
extractor never produces the term `"ai"` at all (with `top_k = 2` or even
`top_k = 10`), because the two-character token is dropped by the
minimum-length-3 filter, so `"ai"` cannot be ranked above anything. -/
theorem C3_keywords_counterexample :
    "ai" ∉ (extract_keywords_fallback
        ["AI helps doctors", "AI helps lawyers", "doctors use AI"] 2).map Prod.fst ∧
    "ai" ∉ (extract_keywords_fallback
        ["AI helps doctors", "AI helps lawyers", "doctors use AI"] 10).map Prod.fst := by
  decide

/-- C3, amended: the fallback strategy on those texts returns at most 2
entries, namely `[("helps", 2), ("doctors", 2)]` (first-encounter order
breaking the tie), and `"ai"` does not survive tokenization. -/
theorem C3_keywords_amended :
    (extract_keywords_fallback
        ["AI helps doctors", "AI helps lawyers", "doctors use AI"] 2).length ≤ 2 ∧
    extract_keywords_fallback
        ["AI helps doctors", "AI helps lawyers", "doctors use AI"] 2 =
      [("helps", 2), ("doctors", 2)] ∧
    "ai" ∉ fallbackTokens ["AI helps doctors", "AI helps lawyers", "doctors use AI"] := by
  decide

/-- C4, counterexample: at 3 articles the code truncates `7.5` to `7`, while
the claimed formula `max(5, min(100, round(100 * n / 40)))` gives `8`. -/
theorem C4_buzz_counterexample :
    buzz_meter_value (List.replicate 3 ⟨"t", "l", "p", "s"⟩) = 7 ∧
    max 5 (min 100 (round ((100 * (3 : ℚ)) / 40))) = 8 := by
  constructor
  · norm_num [buzz_meter_value]
  · rw [round_eq]; norm_num

/-- C4, amended: `buzz_meter_value` is `max(5, min(100, ⌊100 * n / 40⌋))`
(truncation, not rounding), always lies in `[5, 100]`, and takes the spec's
corner values `buzz(0) = 5`, `buzz(20) = 50`, `buzz(40) = 100`,
`buzz(1000) = 100`. -/
theorem C4_buzz_amended (articles : List Article) (a : Article) :
    buzz_meter_value articles =
      max 5 (min 100 (Int.floor ((100 : ℚ) * (articles.length : ℚ) / 40))) ∧
    5 ≤ buzz_meter_value articles ∧ buzz_meter_value articles ≤ 100 ∧
    buzz_meter_value [] = 5 ∧
    buzz_meter_value (List.replicate 20 a) = 50 ∧
    buzz_meter_value (List.replicate 40 a) = 100 ∧
    buzz_meter_value (List.replicate 1000 a) = 100 := by
  refine ⟨by rw [buzz_meter_value, mul_div_assoc], le_max_left _ _,
    max_le (by norm_num) ((min_le_left _ _).trans (le_refl _)), ?_, ?_, ?_, ?_⟩ <;>
    norm_num [buzz_meter_value]

/-- Witness for `C4_buzz_amended` at the empty list and a concrete article. -/
theorem C4_buzz_amended_witness :
    buzz_meter_value [] = 5 ∧ buzz_meter_value (List.replicate 40 ⟨"t", "l", "p", "s"⟩) = 100 := by
  have h := C4_buzz_amended [] ⟨"t", "l", "p", "s"⟩
  exact ⟨h.2.2.2.1, h.2.2.2.2.2.1⟩

/-- C5, counterexample: a lookback of `0` days is non-positive but is coerced
to the default `7`, not to `1` (`int(days_back or 7)` treats `0` as falsy),
so the built URL embeds `when:7d`. -/
theorem C5_url_counterexample :
    _google_news_days 0 = 7 ∧ _google_news_days 0 ≠ 1 ∧
    _google_news_url "AI" 0 "US" "en" = _google_news_url "AI" 7 "US" "en" ∧
    _google_news_url "AI" 0 "US" "en" ≠ _google_news_url "AI" 1 "US" "en" := by
  decide

/-- C5, amended: the builder is total and coercing — the embedded day count
is always at least 1; a negative lookback is coerced to 1, a zero lookback to
the default 7, a positive one kept; an empty query defaults to `"AI"` and a
non-empty query is percent-encoded after stripping. -/
theorem C5_url_amended (query : String) (days_back : Int) (region lang : String) :
    1 ≤ _google_news_days days_back ∧
    (days_back ≤ -1 → _google_news_days days_back = 1) ∧
    (days_back = 0 → _google_news_days days_back = 7) ∧
    (1 ≤ days_back → _google_news_days days_back = days_back) ∧
    (query = "" → _google_news_url query days_back region lang =
      "https://news.google.com/rss/search?" ++ "q=" ++ "AI" ++
        "+when:" ++ toString (_google_news_days days_back) ++ "d&hl=" ++ lang ++ "-" ++ region ++
        "&gl=" ++ region ++ "&ceid=" ++ region ++ ":" ++ lang) ∧
    (query ≠ "" → _google_news_url query days_back region lang =
      "https://news.google.com/rss/search?" ++ "q=" ++ quote_plus (pyStrip query) ++
        "+when:" ++ toString (_google_news_days days_back) ++ "d&hl=" ++ lang ++ "-" ++ region ++
        "&gl=" ++ region ++ "&ceid=" ++ region ++ ":" ++ lang) := by
  refine ⟨le_max_left _ _, ?_, ?_, ?_, ?_, ?_⟩
  · intro h
    unfold _google_news_days
    rw [if_neg (by omega)]
    exact max_eq_left (by omega)
  · intro h
    subst h
    decide
  · intro h
    unfold _google_news_days
    rw [if_neg (by omega)]
    exact max_eq_right h
  · intro h
    subst h
    rfl
  · intro h
    unfold _google_news_url
    rw [if_neg h]

/-- C7: the fetcher issues at most 3 GET requests, all against the built URL
with the fixed browser User-Agent and timeout 10; the i-th backoff sleep is
`(i + 1) * 0.5`; and when all three attempts fail it returns the explicit
HTTP-error result carrying the last underlying error's description (being a
total function, it cannot raise). -/
theorem C7_http_retry_discipline (http : Nat → HttpAttempt) (url : String) :
    (http_fetch http url).2.1.length ≤ 3 ∧
    (∀ req ∈ (http_fetch http url).2.1,
        req.url = url ∧ req.userAgent = _UA ∧ req.timeout = 10) ∧
    (http_fetch http url).2.2 =
      (List.range (http_fetch http url).2.2.length).map (fun i => (1/2 : ℚ) * ((i : ℚ) + 1)) ∧
    ((http 0).ok = false → (http 1).ok = false → (http 2).ok = false →
      (http_fetch http url).1 =
        Except.error ("HTTP error fetching RSS: " ++ (http 2).err)) := by
  have hrange : List.range 3 = [0, 1, 2] := rfl
  by_cases h0 : (http 0).ok <;> by_cases h1 : (http 1).ok <;> by_cases h2 : (http 2).ok <;>
    simp [http_fetch, httpLoop, hrange, h0, h1, h2, pyFormatOpt, List.range_succ]

/-- Witness for `C7_http_retry_discipline` at an always-failing transport. -/
theorem C7_http_retry_discipline_witness :
    (http_fetch (fun _ => HttpAttempt.mk false "" "boom") "u").1 =
      Except.error ("HTTP error fetching RSS: " ++ "boom") ∧
    (http_fetch (fun _ => HttpAttempt.mk false "" "boom") "u").2.1.length ≤ 3 := by
  have h := C7_http_retry_discipline (fun _ => HttpAttempt.mk false "" "boom") "u"
  exact ⟨h.2.2.2 rfl rfl rfl, h.1⟩

/-- Witness for `C5_url_amended` at an empty query and a negative lookback. -/
theorem C5_url_amended_witness :
    _google_news_days (-3) = 1 ∧
    _google_news_url "" (-3) "US" "en" =
      "https://news.google.com/rss/search?" ++ "q=" ++ "AI" ++
        "+when:" ++ toString (_google_news_days (-3)) ++ "d&hl=" ++ "en" ++ "-" ++ "US" ++
        "&gl=" ++ "US" ++ "&ceid=" ++ "US" ++ ":" ++ "en" := by
  have h := C5_url_amended "" (-3) "US" "en"
  exact ⟨h.2.1 (by norm_num), h.2.2.2.2.1 rfl⟩

/-! ## Feed parser lemmas -/

/-- One XML loop step grows the accumulator by at most one article. -/
theorem xmlStep_length_le (acc : List Article) (it : XmlItem) :
    (xmlStep acc it).length ≤ acc.length + 1 := by
  unfold xmlStep; split <;> simp

/-- One XML loop step preserves the non-empty-title-and-link invariant. -/
theorem xmlStep_mem (acc : List Article) (it : XmlItem)
    (hacc : ∀ a ∈ acc, a.title ≠ "" ∧ a.link ≠ "") :
    ∀ a ∈ xmlStep acc it, a.title ≠ "" ∧ a.link ≠ "" := by
  unfold xmlStep
  split
  · next hk =>
      intro a ha
      rcases List.mem_append.mp ha with h | h
      · exact hacc a h
      · rw [List.mem_singleton.mp h]
        exact hk
  · exact hacc

/-- The XML loop never exceeds the cap (starting strictly below it). -/
theorem xmlCollect_length_le (cap : Nat) (items : List XmlItem) :
    ∀ acc : List Article, acc.length < cap → (xmlCollect cap items acc).length ≤ cap := by
  induction items with
  | nil =>
      intro acc h
      simpa [xmlCollect] using Nat.le_of_lt h
  | cons it rest ih =>
      intro acc h
      have hs := xmlStep_length_le acc it
      simp only [xmlCollect]
      split
      · next hc => omega
      · next hc => exact ih _ (by omega)

/-- Every article the XML loop retains has non-empty title and link. -/
theorem xmlCollect_mem (cap : Nat) (items : List XmlItem) :
    ∀ acc : List Article, (∀ a ∈ acc, a.title ≠ "" ∧ a.link ≠ "") →
      ∀ a ∈ xmlCollect cap items acc, a.title ≠ "" ∧ a.link ≠ "" := by
  induction items with
  | nil => intro acc hacc; simpa [xmlCollect] using hacc
  | cons it rest ih =>
      intro acc hacc
      simp only [xmlCollect]
      split
      · exact xmlStep_mem acc it hacc
      · exact ih _ (xmlStep_mem acc it hacc)

/-- One fallback loop step grows the accumulator by at most one article. -/
theorem fallbackStep_length_le (acc : List Article) (e : FpEntry) :
    (fallbackStep acc e).length ≤ acc.length + 1 := by
  unfold fallbackStep; split <;> simp

/-- One fallback loop step preserves the non-empty-title-and-link invariant. -/
theorem fallbackStep_mem (acc : List Article) (e : FpEntry)
    (hacc : ∀ a ∈ acc, a.title ≠ "" ∧ a.link ≠ "") :
    ∀ a ∈ fallbackStep acc e, a.title ≠ "" ∧ a.link ≠ "" := by
  unfold fallbackStep
  split
  · next hk =>
      intro a ha
      rcases List.mem_append.mp ha with h | h
      · exact hacc a h
      · rw [List.mem_singleton.mp h]
        exact hk
  · exact hacc

/-- Folding the fallback step adds at most one article per entry. -/
theorem foldl_fallbackStep_length (entries : List FpEntry) :
    ∀ acc : List Article,
      (entries.foldl fallbackStep acc).length ≤ acc.length + entries.length := by
  induction entries with
  | nil => intro acc; simp
  | cons e rest ih =>
      intro acc
      have h1 := ih (fallbackStep acc e)
      have h2 := fallbackStep_length_le acc e
      simp only [List.foldl_cons, List.length_cons]
      omega

/-- Folding the fallback step preserves the title/link invariant. -/
theorem foldl_fallbackStep_mem (entries : List FpEntry) :
    ∀ acc : List Article, (∀ a ∈ acc, a.title ≠ "" ∧ a.link ≠ "") →
      ∀ a ∈ entries.foldl fallbackStep acc, a.title ≠ "" ∧ a.link ≠ "" := by
  induction entries with
  | nil => intro acc hacc; simpa using hacc
  | cons e rest ih =>
      intro acc hacc
      simp only [List.foldl_cons]
      exact ih _ (fallbackStep_mem acc e hacc)

/-- The fallback strategy returns at most `cap` articles. -/
theorem fallbackCollect_length_le (cap : Nat) (entries : List FpEntry) :
    (fallbackCollect cap entries).length ≤ cap := by
  unfold fallbackCollect
  have h := foldl_fallbackStep_length (entries.take cap) []
  simp only [List.length_nil, Nat.zero_add] at h
  have h2 : (entries.take cap).length ≤ cap := by
    rw [List.length_take]; exact min_le_left _ _
  exact h.trans h2

/-- Every article the fallback strategy retains has non-empty title and
link. -/
theorem fallbackCollect_mem (cap : Nat) (entries : List FpEntry) :
    ∀ a ∈ fallbackCollect cap entries, a.title ≠ "" ∧ a.link ≠ "" := by
  unfold fallbackCollect
  exact foldl_fallbackStep_mem (entries.take cap) []
    (fun a ha => absurd ha (List.not_mem_nil a))

/-- A successful parse came from exactly one of the two strategies. -/
theorem parse_feed_ok_cases (env : Env) (xml_text : String) (cap : Nat)
    (articles : List Article) (h : parse_feed env xml_text cap = Except.ok articles) :
    (∃ items, env.xmlParse xml_text = some items ∧ articles = xmlCollect cap items []) ∨
    (∃ entries, env.xmlParse xml_text = none ∧ env.fpParse xml_text = Except.ok entries ∧
        articles = fallbackCollect cap entries) := by
  unfold parse_feed at h
  cases hx : env.xmlParse xml_text with
  | some items =>
      simp only [hx, Except.ok.injEq] at h
      exact Or.inl ⟨items, rfl, h.symm⟩
  | none =>
      cases hf : env.fpParse xml_text with
      | ok entries =>
          simp only [hx, hf, Except.ok.injEq] at h
          exact Or.inr ⟨entries, rfl, rfl, h.symm⟩
      | error e2 =>
          simp only [hx, hf] at h
          exact Except.noConfusion h

/-- The cap is always positive. -/
theorem fgn_cap_pos (ma : Int) : 0 < fgn_cap ma := by
  unfold fgn_cap
  have h : (1 : Int) ≤ max 1 (if ma = 0 then 15 else ma) := le_max_left _ _
  omega

/-- The article list `fetch_google_news` returns is capped at `fgn_cap` and
contains only articles with non-empty title and link. -/
theorem fetch_google_news_articles_spec (env : Env) (q : String) (db ma : Int)
    (rg lg : String) :
    (fetch_google_news env q db ma rg lg).1.length ≤ fgn_cap ma ∧
    ∀ a ∈ (fetch_google_news env q db ma rg lg).1, a.title ≠ "" ∧ a.link ≠ "" := by
  unfold fetch_google_news
  cases hres : (http_fetch env.http (_google_news_url q db rg lg)).1 with
  | error msg => simp
  | ok xml_text =>
      cases hp : parse_feed env xml_text (fgn_cap ma) with
      | error m => simp [hp]
      | ok articles =>
          by_cases he : articles = []
          · simp [hp, he]
          · simp only [hp, if_neg he]
            rcases parse_feed_ok_cases env xml_text (fgn_cap ma) articles hp with
              ⟨items, _, rfl⟩ | ⟨entries, _, _, rfl⟩
            · exact ⟨xmlCollect_length_le _ items [] (by simpa using fgn_cap_pos ma),
                xmlCollect_mem _ items [] (fun a ha => absurd ha (List.not_mem_nil a))⟩
            · exact ⟨fallbackCollect_length_le _ _, fallbackCollect_mem _ _⟩

/-- C1: for `days ≥ 1` and `max_items ≥ 1`, `fetch_news` returns at most
`max_items` articles, each with non-empty title and link. -/
theorem C1_fetch_news_bounds (env : Env) (query : String) (days max_items : Int)
    (_hd : 1 ≤ days) (hm : 1 ≤ max_items) :
    (fetch_news env query days max_items).length ≤ max_items.toNat ∧
    ∀ a ∈ fetch_news env query days max_items, a.title ≠ "" ∧ a.link ≠ "" := by
  have hcap : fgn_cap max_items = max_items.toNat := by
    unfold fgn_cap
    rw [if_neg (by omega), max_eq_right hm]
  have h := fetch_google_news_articles_spec env query days max_items "US" "en"
  rw [hcap] at h
  exact h

/-- Witness for `C1_fetch_news_bounds` in a concrete environment whose feed
holds one valid item and one item without a link. -/
theorem C1_fetch_news_bounds_witness :
    (1 ≤ (7 : Int)) ∧ (1 ≤ (15 : Int)) ∧
    (fetch_news envXmlTwo "AI" 7 15).length ≤ (15 : Int).toNat ∧
    ∀ a ∈ fetch_news envXmlTwo "AI" 7 15, a.title ≠ "" ∧ a.link ≠ "" := by
  have h := C1_fetch_news_bounds envXmlTwo "AI" 7 15 (by norm_num) (by norm_num)
  exact ⟨by norm_num, by norm_num, h.1, h.2⟩

/-- C6: the parser's outcome taxonomy — on XML-strategy failure the result
is the fallback strategy's (no exception propagates: the embedding is a
total function), on double failure it is the explicit parse-error failure,
which is distinct from the empty-feed message, and a strategy completing
with zero retained articles makes `fetch_google_news` return the distinct
empty-feed failure rather than an empty success. -/
theorem C6_error_taxonomy (env : Env) (xml_text body q : String) (cap : Nat)
    (db ma : Int) (rg lg : String) (entries : List FpEntry) (e2 : String)
    (hbody : (http_fetch env.http (_google_news_url q db rg lg)).1 = Except.ok body) :
    (env.xmlParse xml_text = none → env.fpParse xml_text = Except.ok entries →
        parse_feed env xml_text cap = Except.ok (fallbackCollect cap entries)) ∧
    (env.xmlParse xml_text = none → env.fpParse xml_text = Except.error e2 →
        parse_feed env xml_text cap = Except.error ("Parse error: " ++ e2)) ∧
    "Parse error: " ++ e2 ≠ emptyFeedMsg ∧
    (parse_feed env body (fgn_cap ma) = Except.ok [] →
        fetch_google_news env q db ma rg lg = ([], some emptyFeedMsg)) := by
  refine ⟨?_, ?_, ?_, ?_⟩
  · intro hx hf
    unfold parse_feed
    rw [hx, hf]
  · intro hx hf
    unfold parse_feed
    rw [hx, hf]
  · intro hcontra
    have h1 : (("Parse error: " ++ e2).data).head? = some 'P' := by
      rw [string_data_append]
      rfl
    rw [hcontra] at h1
    exact absurd h1 (by decide)
  · intro hp
    unfold fetch_google_news
    rw [hbody]
    simp [hp]

/-- Witness for `C6_error_taxonomy` in the environment where the XML
strategy fails and the fallback retains zero articles. -/
theorem C6_error_taxonomy_witness :
    parse_feed envFallbackEmpty "x" 2 = Except.ok [] ∧
    fetch_google_news envFallbackEmpty "AI" 7 15 "US" "en" = ([], some emptyFeedMsg) := by
  have h := C6_error_taxonomy envFallbackEmpty "x" "x" "AI" 2 7 15 "US" "en" [] "e" rfl
  exact ⟨h.1 rfl rfl, h.2.2.2 rfl⟩

/-- C9, counterexample: in the fallback strategy the cap is a slice of the
raw entry list, so an entry lacking a title consumes a cap slot — with cap 2
and entries [invalid, valid, valid] only one article is returned even though
two valid entries exist (cap 3 returns both). -/
theorem C9_cap_counterexample :
    fallbackCollect 2 [⟨"", "L0", "", none⟩, ⟨"T1", "L1", "", none⟩, ⟨"T2", "L2", "", none⟩] =
      [⟨"T1", "L1", "", ""⟩] ∧
    fallbackCollect 3 [⟨"", "L0", "", none⟩, ⟨"T1", "L1", "", none⟩, ⟨"T2", "L2", "", none⟩] =
      [⟨"T1", "L1", "", ""⟩, ⟨"T2", "L2", "", ""⟩] := by
  decide

/-- C9, amended: in the structured-XML strategy an invalid entry is skipped
without counting toward the cap and traversal stops exactly when the cap-th
valid article is retained; in the fallback strategy the cap is applied to the
raw entry prefix before the title/link filter, so an invalid entry among the
first `cap` consumes a slot; both strategies return at most `cap` articles. -/
theorem C9_cap_amended (cap : Nat) (bad good : XmlItem) (rest : List XmlItem)
    (acc : List Article) (entries : List FpEntry) (badE : FpEntry)
    (hbad : ¬ (pyStrip (bad.title.getD "") ≠ "" ∧ pyStrip (bad.link.getD "") ≠ ""))
    (hgood : pyStrip (good.title.getD "") ≠ "" ∧ pyStrip (good.link.getD "") ≠ "")
    (hfull : acc.length + 1 = cap)
    (hbadE : ¬ (pyStrip badE.title ≠ "" ∧ pyStrip badE.link ≠ ""))
    (hcap : 1 ≤ cap) :
    xmlCollect cap (bad :: rest) acc = xmlCollect cap rest acc ∧
    xmlCollect cap (good :: rest) acc = acc ++ [xmlArticle good] ∧
    fallbackCollect cap (badE :: entries) = fallbackCollect (cap - 1) entries ∧
    (fallbackCollect cap entries).length ≤ cap := by
  have hstepbad : xmlStep acc bad = acc := by
    unfold xmlStep; rw [if_neg hbad]
  have hstepgood : xmlStep acc good = acc ++ [xmlArticle good] := by
    unfold xmlStep; rw [if_pos hgood]
  refine ⟨?_, ?_, ?_, fallbackCollect_length_le cap entries⟩
  · simp only [xmlCollect, hstepbad]
    rw [if_neg (by omega)]
  · simp only [xmlCollect, hstepgood]
    rw [if_pos (by simp only [List.length_append, List.length_singleton]; omega)]
  · obtain ⟨k, rfl⟩ : ∃ k, cap = k + 1 := ⟨cap - 1, by omega⟩
    unfold fallbackCollect
    rw [List.take_succ_cons]
    simp only [List.foldl_cons]
    have hz : fallbackStep [] badE = [] := by
      unfold fallbackStep; rw [if_neg hbadE]
    rw [hz]
    simp

/-- Witness for `C9_cap_amended` at concrete items and cap 1. -/
theorem C9_cap_amended_witness :
    xmlCollect 1 [XmlItem.mk (some "") (some "L") none []] [] = xmlCollect 1 [] [] ∧
    xmlCollect 1 [XmlItem.mk (some "T") (some "L") none []] [] =
      [] ++ [xmlArticle (XmlItem.mk (some "T") (some "L") none [])] ∧
    fallbackCollect 1 [FpEntry.mk "" "L" "" none] = fallbackCollect 0 [] := by
  have h := C9_cap_amended 1 (XmlItem.mk (some "") (some "L") none [])
      (XmlItem.mk (some "T") (some "L") none []) [] [] [] (FpEntry.mk "" "L" "" none)
      (by decide) (by decide) rfl (by decide) (by norm_num)
  exact ⟨h.1, h.2.1, h.2.2.1⟩

/-- C10: `fetch_google_news` returns `(articles, error)` with `error = none`
exactly when `articles` is non-empty — no failure branch delivers partial
results. -/
theorem C10_error_iff_empty (env : Env) (q : String) (db ma : Int) (rg lg : String) :
    (fetch_google_news env q db ma rg lg).2 = none ↔
      (fetch_google_news env q db ma rg lg).1 ≠ [] := by
  unfold fetch_google_news
  cases hres : (http_fetch env.http (_google_news_url q db rg lg)).1 with
  | error msg => simp
  | ok xml_text =>
      cases hp : parse_feed env xml_text (fgn_cap ma) with
      | error m => simp [hp]
      | ok articles => by_cases he : articles = [] <;> simp [hp, he]

/-- Witness for `C10_error_iff_empty`: the empty-feed environment pairs its
empty article list with a non-`none` error. -/
theorem C10_error_iff_empty_witness :
    (fetch_google_news envFallbackEmpty "AI" 7 15 "US" "en").2 ≠ none := by
  have h := C10_error_iff_empty envFallbackEmpty "AI" 7 15 "US" "en"
  intro hnone
  exact h.mp hnone rfl

end AINews
